import Mathlib

/-!
Verification of the Spar shopping-app engine: a shallow embedding of the
fuzzy product matcher (`normalizeString`, `calculateLevenshteinDistance`,
`calculateSimilarityScore`, `searchProducts`) and of the store path
optimizer (`createProductIndex`, `findProductLocation`,
`organizeItemsByCorridor`, `determineCorridorEntryPoints`,
`optimizeShoppingPath`), together with theorems settling the specified
properties of these functions.

Modeling conventions:
- JavaScript strings are modeled as lists of Unicode code points (`JsStr`).
- JavaScript `Map` objects are modeled as association lists in insertion
  order; `Map.set` updates an existing key in place and appends new keys
  at the end, exactly as the JS iteration order behaves.
- JavaScript numbers used for similarity scores are modeled as rationals;
  the score formulas involve only small decimal constants and divisions.
- `Array.prototype.sort` is guaranteed stable by the ECMAScript standard;
  a stable sort for a total preorder is unique, so it is modeled by
  `List.insertionSort` with the non-strict "comparator ≤ 0" relation.
-/

namespace SparApp

/-- Strings are modeled as lists of Unicode code points. -/
abbrev JsStr := List Nat

/-- Code points of a Lean string literal, used to write concrete JS strings. -/
def js (s : String) : JsStr := s.data.map Char.toNat

/-- The JavaScript `\s` (and `trim`) whitespace class, by code point. -/
def isJsWhitespace (n : Nat) : Bool :=
  decide (n = 9 ∨ n = 10 ∨ n = 11 ∨ n = 12 ∨ n = 13 ∨ n = 32 ∨ n = 160 ∨
    n = 5760 ∨ (8192 ≤ n ∧ n ≤ 8202) ∨ n = 8232 ∨ n = 8233 ∨ n = 8239 ∨
    n = 8287 ∨ n = 12288 ∨ n = 65279)

/-- The code-point action of `String.prototype.toLowerCase` on the ASCII and
Latin-1 letters (the only ranges occurring in the catalog data): uppercase
`A`–`Z` and `À`–`Þ` (except `×`) map to the letter 32 code points higher;
every other code point is left unchanged. -/
def jsToLower (n : Nat) : Nat :=
  if (65 ≤ n ∧ n ≤ 90) ∨ (192 ≤ n ∧ n ≤ 222 ∧ n ≠ 215) then n + 32 else n

/-- Canonical decomposition (`normalize('NFD')`) of one code point,
restricted to the precomposed Latin-1 lowercase letters that can occur
after `jsToLower` in the catalog data; all other code points (in
particular ASCII letters, digits and whitespace) are atomic. -/
def jsNfdDecompose (n : Nat) : List Nat :=
  if n = 224 then [97, 768] else if n = 225 then [97, 769]
  else if n = 226 then [97, 770] else if n = 227 then [97, 771]
  else if n = 228 then [97, 776] else if n = 229 then [97, 778]
  else if n = 231 then [99, 807] else if n = 232 then [101, 768]
  else if n = 233 then [101, 769] else if n = 234 then [101, 770]
  else if n = 235 then [101, 776] else if n = 236 then [105, 768]
  else if n = 237 then [105, 769] else if n = 238 then [105, 770]
  else if n = 239 then [105, 776] else if n = 241 then [110, 771]
  else if n = 242 then [111, 768] else if n = 243 then [111, 769]
  else if n = 244 then [111, 770] else if n = 245 then [111, 771]
  else if n = 246 then [111, 776] else if n = 249 then [117, 768]
  else if n = 250 then [117, 769] else if n = 251 then [117, 770]
  else if n = 252 then [117, 776] else if n = 253 then [121, 769]
  else if n = 255 then [121, 776] else [n]

/-- Combining diacritical marks, the range removed by `/[̀-ͯ]/g`. -/
def isCombiningMark (n : Nat) : Bool := decide (768 ≤ n ∧ n ≤ 879)

/-- Characters kept by the final `/[^a-z0-9\s]/g` removal: lowercase ASCII
letters, ASCII digits, and whitespace. -/
def isKeptChar (n : Nat) : Bool :=
  decide (97 ≤ n ∧ n ≤ 122) || decide (48 ≤ n ∧ n ≤ 57) || isJsWhitespace n

/-- Model of `normalizeString`: lowercase, Unicode NFD decomposition,
removal of combining marks, then removal of everything outside
`[a-z0-9\s]`. -/
def normalizeString (s : JsStr) : JsStr :=
  (((s.map jsToLower).flatMap jsNfdDecompose).filter
      (fun n => ! isCombiningMark n)).filter isKeptChar

/-- Cell `(j, i)` of the dynamic-programming matrix built by
`calculateLevenshteinDistance` for strings `a` and `b`: the value is
determined by the source's defining equations `matrix[0][i] = i`,
`matrix[j][0] = j` and
`matrix[j][i] = min(matrix[j][i-1] + 1, matrix[j-1][i] + 1,
matrix[j-1][i-1] + substitutionCost)`, independent of the imperative
fill order. -/
def levMatrix (a b : JsStr) : Nat → Nat → Nat
  | 0, i => i
  | j + 1, 0 => j + 1
  | j + 1, i + 1 =>
    min (levMatrix a b (j + 1) i + 1)
      (min (levMatrix a b j (i + 1) + 1)
        (levMatrix a b j i + if a.getD i 0 = b.getD j 0 then 0 else 1))
  termination_by j i => (j, i)

/-- Model of `calculateLevenshteinDistance`: the two length-zero
short circuits, then the dynamic-programming matrix evaluated at
`(b.length, a.length)`. -/
def calculateLevenshteinDistance (a b : JsStr) : Nat :=
  if a.length = 0 then b.length
  else if b.length = 0 then a.length
  else levMatrix a b b.length a.length

/-- Reference definition for claim C7: the naive recursive Levenshtein
distance in which insertion, deletion and substitution each cost 1 and
matching characters cost 0. -/
def levenshteinRec (a b : JsStr) : Nat :=
  match a, b with
  | [], ys => ys.length
  | _ :: xs, [] => xs.length + 1
  | x :: xs, y :: ys =>
    min (min (levenshteinRec xs (y :: ys) + 1) (levenshteinRec (x :: xs) ys + 1))
      (levenshteinRec xs ys + if x = y then 0 else 1)
  termination_by a.length + b.length
  decreasing_by all_goals (simp only [List.length_cons]; omega)

/-- Substring test: model of JavaScript `hay.includes(needle)`. -/
def isSubstrOfJs (needle hay : JsStr) : Bool :=
  hay.tails.any (fun t => needle.isPrefixOf t)

/-- Worker for `jsSplitWhitespace`. In mode `false` it is accumulating the
current token (in reverse) in `cur`; in mode `true` the previous token has
been flushed and a whitespace run is being consumed. -/
def jsSplitWhitespaceGo : Bool → List Nat → List Nat → List JsStr
  | false, [], cur => [cur.reverse]
  | false, c :: rest, cur =>
    if isJsWhitespace c then cur.reverse :: jsSplitWhitespaceGo true rest []
    else jsSplitWhitespaceGo false rest (c :: cur)
  | true, [], _ => [[]]
  | true, c :: rest, _ =>
    if isJsWhitespace c then jsSplitWhitespaceGo true rest []
    else jsSplitWhitespaceGo false rest [c]

/-- Model of JavaScript `s.split(/\s+/)`: tokens between maximal whitespace
runs, with an empty leading token when the string starts with whitespace and
an empty trailing token when it ends with whitespace; the empty string
splits into `[""]`. -/
def jsSplitWhitespace (s : JsStr) : List JsStr :=
  jsSplitWhitespaceGo false s []

/-- Model of JavaScript `s.trim()` (used by the `!query.trim()` guard). -/
def jsTrim (s : JsStr) : JsStr :=
  ((s.dropWhile isJsWhitespace).reverse.dropWhile isJsWhitespace).reverse

/-- Model of `calculateSimilarityScore`: 1 on an exact normalized match,
0.8 on a substring match, otherwise the maximum of the word-overlap score
(weight 0.6) and the Levenshtein-based score (weight 0.4). -/
def calculateSimilarityScore (query item : JsStr) : ℚ :=
  let normalizedQuery := normalizeString query
  let normalizedItem := normalizeString item
  if normalizedItem = normalizedQuery then 1
  else if isSubstrOfJs normalizedQuery normalizedItem then 0.8
  else
    let queryWords := jsSplitWhitespace normalizedQuery
    let itemWords := jsSplitWhitespace normalizedItem
    let wordMatchCount :=
      (queryWords.filter (fun word => itemWords.any (fun itemWord => isSubstrOfJs word itemWord))).length
    let wordMatchScore := (wordMatchCount : ℚ) / (queryWords.length : ℚ) * 0.6
    let maxLength := max normalizedQuery.length normalizedItem.length
    let levenshteinScore :=
      if 0 < maxLength then
        ((maxLength : ℚ) - (calculateLevenshteinDistance normalizedQuery normalizedItem : ℚ))
          / (maxLength : ℚ) * 0.4
      else 0
    max wordMatchScore levenshteinScore

/-- One catalog entry as consumed by the product search. -/
structure GroceryItem where
  id : JsStr
  name : JsStr
  category : JsStr
  gang : JsStr
  deriving DecidableEq, Repr

/-- Combined score of one catalog entry in `searchProducts`:
0.7 times the name similarity plus 0.3 times the category similarity. -/
def searchTotalScore (query : JsStr) (item : GroceryItem) : ℚ :=
  calculateSimilarityScore query item.name * 0.7 +
    calculateSimilarityScore query item.category * 0.3

/-- The "comparator result ≤ 0" relation of the sort in `searchProducts`
(`(a, b) => b.score - a.score`): descending by stored score. -/
def scoreGe (a b : GroceryItem × ℚ) : Prop := b.2 ≤ a.2

instance : DecidableRel scoreGe := fun a b => inferInstanceAs (Decidable (b.2 ≤ a.2))

instance : IsTotal (GroceryItem × ℚ) scoreGe := ⟨fun a b => le_total b.2 a.2⟩

instance : IsTrans (GroceryItem × ℚ) scoreGe := ⟨fun _ _ _ h₁ h₂ => le_trans h₂ h₁⟩

/-- Model of `searchProducts`: score every entry, keep the scores strictly
above 0.2, sort descending by score (stably), return at most 20 entries.
An empty (or all-whitespace) query returns no results. -/
def searchProducts (query : JsStr) (allItems : List GroceryItem) : List GroceryItem :=
  if jsTrim query = [] then []
  else
    let scoredItems := allItems.map (fun item => (item, searchTotalScore query item))
    (((scoredItems.filter (fun p => decide ((0.2 : ℚ) < p.2))).insertionSort scoreGe).map
        (fun p => p.1)).take 20

/-- Location descriptor attached to each indexed product. The
`distanceFromStart` field copies the corridor's entry of the distance
table at indexing time (`undefined`, i.e. `none`, for unknown corridors);
it is never read by the optimizer. -/
structure Location where
  corridor : JsStr
  direction : JsStr
  position : JsStr
  category : JsStr
  distanceFromStart : Option Nat
  deriving DecidableEq, Repr

/-- The fixed `corridorDistances` table mapping corridor names to their
distance-from-entrance rank. -/
def corridorDistances : List (JsStr × Nat) :=
  [(js "Seiten M", 1), (js "Gang 1", 2), (js "Gang 2", 3), (js "Gang 3", 4),
   (js "Gang 4", 5), (js "Gang 5", 6), (js "Gang 6", 7)]

/-- Lookup in an insertion-ordered association list (JS `Map.get`). -/
def lookupJs {α : Type} (m : List (JsStr × α)) (k : JsStr) : Option α :=
  (m.find? (fun p => decide (p.1 = k))).map (fun p => p.2)

/-- The sort key used on corridor names:
`corridorDistances[name] || 0`, i.e. the table rank with unknown
corridors defaulting to 0. -/
def rankD (name : JsStr) : Nat := (lookupJs corridorDistances name).getD 0

/-- The "comparator result ≤ 0" relation of the corridor sorts
(`(a, b) => (corridorDistances[a] || 0) - (corridorDistances[b] || 0)`). -/
def rankLe (a b : JsStr) : Prop := rankD a ≤ rankD b

instance : DecidableRel rankLe := fun a b => Nat.decLe (rankD a) (rankD b)

instance : IsTotal JsStr rankLe := ⟨fun a b => Nat.le_total (rankD a) (rankD b)⟩

instance : IsTrans JsStr rankLe := ⟨fun _ _ _ h₁ h₂ => Nat.le_trans h₁ h₂⟩

/-- JS `Map.set`: overwrite the value of an existing key in place, or
append a new key at the end (preserving iteration order). -/
def mapSet {α : Type} : List (JsStr × α) → JsStr → α → List (JsStr × α)
  | [], k, v => [(k, v)]
  | p :: rest, k, v => if p.1 = k then (k, v) :: rest else p :: mapSet rest k v

/-- One `N`/`S` shelf section of a corridor: an optional `positions` map
(side `E`/`W` to category-to-products map) and an optional flat
`categories` map. A missing optional key is modeled as the empty list,
which the indexer treats identically. -/
structure SectionData where
  positions : List (JsStr × List (JsStr × List JsStr))
  categories : List (JsStr × List JsStr)
  deriving DecidableEq, Repr

/-- The shape of one corridor's catalog value: either a flat
category-to-products map (the `Seiten M` side aisle) or a map of shelf
directions to `SectionData`. -/
inductive CorridorData where
  | flat (categories : List (JsStr × List JsStr))
  | sided (sections : List (JsStr × SectionData))
  deriving DecidableEq, Repr

/-- The catalog: corridor name to corridor data, in object-key order. -/
abbrev StoreData := List (JsStr × CorridorData)

/-- Index one product: key is the lowercased name, value its location. -/
def indexProduct (m : List (JsStr × Location)) (corridor direction position category : JsStr)
    (product : JsStr) : List (JsStr × Location) :=
  mapSet m (product.map jsToLower)
    { corridor := corridor, direction := direction, position := position,
      category := category, distanceFromStart := lookupJs corridorDistances corridor }

/-- Model of `createProductIndex` (the `StoreOptimizer` constructor): walk
the catalog and register every product under its lowercased name. The
`Seiten M` corridor is read as a flat category map; every other corridor
is read as direction sections, `positions` first and then `categories`,
exactly in source order. A `Seiten M` entry that is not flat is skipped
(the JS code would throw there); a non-`Seiten M` entry that is flat
contributes nothing (the JS code finds neither `.positions` nor
`.categories` on it). -/
def createProductIndex (storeData : StoreData) : List (JsStr × Location) :=
  storeData.foldl
    (fun m entry =>
      match entry with
      | (corridor, CorridorData.flat categories) =>
        if corridor = js "Seiten M" then
          categories.foldl
            (fun m cat => cat.2.foldl
              (fun m product => indexProduct m corridor [] [] cat.1 product) m) m
        else m
      | (corridor, CorridorData.sided sections) =>
        if corridor = js "Seiten M" then m
        else
          sections.foldl
            (fun m sec =>
              let m := sec.2.positions.foldl
                (fun m pos => pos.2.foldl
                  (fun m cat => cat.2.foldl
                    (fun m product => indexProduct m corridor sec.1 pos.1 cat.1 product) m) m) m
              sec.2.categories.foldl
                (fun m cat => cat.2.foldl
                  (fun m product => indexProduct m corridor sec.1 [] cat.1 product) m) m) m)
    []

/-- Model of `findProductLocation`: exact lowercased lookup first, then a
first-hit substring fallback in both directions over the map entries in
iteration order. The JS function returns a `[Location | null, boolean]`
pair whose boolean is exactly the success of the option. -/
def findProductLocation (m : List (JsStr × Location)) (product : JsStr) : Option Location :=
  let productLower := product.map jsToLower
  match lookupJs m productLower with
  | some location => some location
  | none =>
    (m.find? (fun p => isSubstrOfJs p.1 productLower || isSubstrOfJs productLower p.1)).map
      (fun p => p.2)

/-- Append a value to the group of key `k`, creating the group at the end
if the key is new (JS `Map` bucket insertion). -/
def addToGroup {α : Type} : List (JsStr × List α) → JsStr → α → List (JsStr × List α)
  | [], k, v => [(k, [v])]
  | g :: gs, k, v =>
    if g.1 = k then (g.1, g.2 ++ [v]) :: gs else g :: addToGroup gs k v

/-- Model of `organizeItemsByCorridor`: partition located items into
buckets keyed by corridor name, preserving insertion order. -/
def organizeItemsByCorridor (items : List (JsStr × Location)) :
    List (JsStr × List (JsStr × Location)) :=
  items.foldl (fun acc item => addToGroup acc item.2.corridor item) []

/-- Number of items of a corridor counted for the east side:
`position === "E" || !position`. -/
def eastItemCount (items : List (JsStr × Location)) : Nat :=
  (items.filter (fun p => decide (p.2.position = js "E") || p.2.position.isEmpty)).length

/-- Number of items of a corridor counted for the west side:
`position === "W" || !position`. -/
def westItemCount (items : List (JsStr × Location)) : Nat :=
  (items.filter (fun p => decide (p.2.position = js "W") || p.2.position.isEmpty)).length

/-- Model of `determineCorridorEntryPoints`: walk the corridors sorted by
distance rank carrying `currentPosition` (initially `"east"`); `Seiten M`
is always entered from the east and leaves `currentPosition` unchanged;
otherwise enter from a side holding more than 1.5 times the other side's
items, and from `currentPosition` when balanced. The comparison
`east > west * 1.5` is stated exactly as `3 * west < 2 * east` (both
sides are integer counts, and 1.5 is exactly representable, so the two
forms agree on every input). The returned map sends each corridor name to
`true` for an east entry. -/
def determineCorridorEntryPoints
    (corridorItems : List (JsStr × List (JsStr × Location))) : List (JsStr × Bool) :=
  let sortedCorridors := (corridorItems.map (fun g => g.1)).insertionSort rankLe
  (sortedCorridors.foldl
    (fun (acc : List (JsStr × Bool) × JsStr) corridor =>
      if corridor = js "Seiten M" then (acc.1 ++ [(corridor, true)], acc.2)
      else
        let items := (lookupJs corridorItems corridor).getD []
        let eastItems := eastItemCount items
        let westItems := westItemCount items
        let fromEast :=
          if 3 * westItems < 2 * eastItems then true
          else if 3 * eastItems < 2 * westItems then false
          else decide (acc.2 = js "east")
        (acc.1 ++ [(corridor, fromEast)], if fromEast then js "west" else js "east"))
    ([], js "east")).1

/-- Strict lexicographic comparison of JS strings (the `<` operator). -/
def jsStrLt : JsStr → JsStr → Bool
  | [], [] => false
  | [], _ :: _ => true
  | _ :: _, [] => false
  | a :: as, b :: bs => if a < b then true else if b < a then false else jsStrLt as bs

/-- Whether an item sorts to the near side for the given entry direction:
`fromEast ? direction === "N" : direction === "S"`. -/
def nearSideFlag (fromEast : Bool) (p : JsStr × Location) : Bool :=
  if fromEast then decide (p.2.direction = js "N") else decide (p.2.direction = js "S")

/-- The "comparator result ≤ 0" relation of the within-corridor item sort:
category first (JS string `<`), then near-side items first. -/
def itemLe (fromEast : Bool) (a b : JsStr × Location) : Prop :=
  jsStrLt a.2.category b.2.category = true ∨
    (jsStrLt a.2.category b.2.category = false ∧ jsStrLt b.2.category a.2.category = false ∧
      (nearSideFlag fromEast b = true → nearSideFlag fromEast a = true))

instance (fromEast : Bool) : DecidableRel (itemLe fromEast) := fun a b => by
  unfold itemLe; infer_instance

/-- The location record placed on each output item, including the
rendering side (`N` shelves are on the right). -/
structure PathItemLocation where
  corridor : JsStr
  direction : JsStr
  position : JsStr
  side : JsStr
  deriving DecidableEq, Repr

/-- One item of a corridor visit in the optimized path. -/
structure PathItem where
  name : JsStr
  category : JsStr
  location : PathItemLocation
  deriving DecidableEq, Repr

/-- One corridor visit of the optimized path. -/
structure CorridorPath where
  name : JsStr
  entryPoint : JsStr
  exitPoint : JsStr
  items : List PathItem
  deriving DecidableEq, Repr

/-- The optimizer result: corridor visits plus the unmatched inputs. -/
structure OptimizedPath where
  corridors : List CorridorPath
  notFoundItems : List JsStr
  deriving DecidableEq, Repr

/-- Model of `optimizeShoppingPath`: locate every shopping-list entry
(unmatched ones go to `notFoundItems` in order), group the located items
by corridor, fix the entry sides, then emit one `CorridorPath` per
corridor in ascending distance-rank order with its items sorted by
category and entry-relative side. -/
def optimizeShoppingPath (m : List (JsStr × Location)) (shoppingList : List JsStr) :
    OptimizedPath :=
  let itemsWithLocations := shoppingList.filterMap
    (fun item => (findProductLocation m item).map (fun loc => (item, loc)))
  let notFoundItems := shoppingList.filter (fun item => (findProductLocation m item).isNone)
  let corridorItems := organizeItemsByCorridor itemsWithLocations
  let entryPoints := determineCorridorEntryPoints corridorItems
  let sortedCorridors := (corridorItems.map (fun g => g.1)).insertionSort rankLe
  { corridors := sortedCorridors.map (fun corridor =>
      let items := (lookupJs corridorItems corridor).getD []
      let fromEast := (lookupJs entryPoints corridor).getD true
      let sortedItems := items.insertionSort (itemLe fromEast)
      { name := corridor,
        entryPoint := if fromEast then js "East" else js "West",
        exitPoint := if fromEast then js "West" else js "East",
        items := sortedItems.map (fun p =>
          { name := p.1, category := p.2.category,
            location :=
              { corridor := p.2.corridor, direction := p.2.direction,
                position := p.2.position,
                side := if p.2.direction = js "N" then js "Right" else js "Left" } }) }),
    notFoundItems := notFoundItems }

/-! ### Claim C9: the empty shopping list -/

/-- Claim C9: for every catalog, optimizing the empty shopping list
succeeds and yields an `OptimizedPath` with no corridors and no
unmatched items. -/
theorem optimizeShoppingPath_nil_eq_empty (storeData : StoreData) :
    optimizeShoppingPath (createProductIndex storeData) [] =
      { corridors := [], notFoundItems := [] } :=
  rfl

/-! ### Claim C3: exit points of one-ended corridor visits -/

/-- Failing input for claim C3: one corridor whose single matched item sits
at the east end, so the visit dips in and out at the east side. -/
def clusteredEastIndex : List (JsStr × Location) :=
  [(js "milk",
    { corridor := js "Gang 1", direction := js "N", position := js "E",
      category := js "dairy", distanceFromStart := some 2 })]

/-- Claim C3 fails on the code: with every matched item clustered at the
east end of `Gang 1` (a dip-in, dip-out visit), the emitted visit still
has `exitPoint = "West"` opposite to `entryPoint = "East"`; the optimizer
never emits `exitPoint = entryPoint`. -/
theorem exitPoint_opposite_on_clustered_visit :
    (optimizeShoppingPath clusteredEastIndex [js "milk"]).corridors =
      [{ name := js "Gang 1", entryPoint := js "East", exitPoint := js "West",
         items := [{ name := js "milk", category := js "dairy",
                     location := { corridor := js "Gang 1", direction := js "N",
                                   position := js "E", side := js "Right" } }] }] := by
  decide

/-! ### Claim C5: the similarity score formulas -/

/-- The per-string similarity score exactly as the claim states it: 1 on a
normalized exact match, else 0.8 on a substring match, else the maximum of
the word-overlap fraction weighted 0.6 and the Levenshtein score weighted
0.4 (0 when `maxLen = 0`). -/
def claimSimilarityScore (query item : JsStr) : ℚ :=
  if normalizeString item = normalizeString query then 1
  else if isSubstrOfJs (normalizeString query) (normalizeString item) then 0.8
  else
    max
      ((((jsSplitWhitespace (normalizeString query)).filter
            (fun word => (jsSplitWhitespace (normalizeString item)).any
              (fun itemWord => isSubstrOfJs word itemWord))).length : ℚ) /
          ((jsSplitWhitespace (normalizeString query)).length : ℚ) * 0.6)
      (if 0 < max (normalizeString query).length (normalizeString item).length then
        (((max (normalizeString query).length (normalizeString item).length : Nat) : ℚ) -
            (calculateLevenshteinDistance (normalizeString query) (normalizeString item) : ℚ)) /
          ((max (normalizeString query).length (normalizeString item).length : Nat) : ℚ) * 0.4
      else 0)

/-- Claim C5: the per-string similarity score is exactly the claimed
case formula, and the combined score of a catalog entry is 0.7 times the
name similarity plus 0.3 times the category similarity. -/
theorem calculateSimilarityScore_eq_claim (query item : JsStr) (entry : GroceryItem) :
    calculateSimilarityScore query item = claimSimilarityScore query item ∧
      searchTotalScore query entry =
        0.7 * calculateSimilarityScore query entry.name +
          0.3 * calculateSimilarityScore query entry.category := by
  constructor
  · unfold calculateSimilarityScore claimSimilarityScore
    rfl
  · unfold searchTotalScore
    ring

/-! ### Claim C8: idempotence of normalization -/

/-- Characters kept by the final normalization filter are fixed by the
lowercasing step. -/
theorem jsToLower_of_kept {n : Nat} (h : isKeptChar n = true) : jsToLower n = n := by
  simp only [isKeptChar, isJsWhitespace, Bool.or_eq_true, decide_eq_true_eq] at h
  unfold jsToLower
  rw [if_neg (by omega)]

/-- Characters kept by the final normalization filter are atomic under the
NFD decomposition. -/
theorem jsNfdDecompose_of_kept {n : Nat} (h : isKeptChar n = true) :
    jsNfdDecompose n = [n] := by
  simp only [isKeptChar, isJsWhitespace, Bool.or_eq_true, decide_eq_true_eq] at h
  unfold jsNfdDecompose
  repeat rw [if_neg (by omega)]

/-- Characters kept by the final normalization filter are not combining
marks. -/
theorem not_combiningMark_of_kept {n : Nat} (h : isKeptChar n = true) :
    isCombiningMark n = false := by
  simp only [isKeptChar, isJsWhitespace, Bool.or_eq_true, decide_eq_true_eq] at h
  simp only [isCombiningMark, decide_eq_false_iff_not]
  omega

/-- Normalization fixes any string all of whose characters pass the final
keep filter. -/
theorem normalizeString_of_all_kept {l : JsStr} (h : ∀ c ∈ l, isKeptChar c = true) :
    normalizeString l = l := by
  unfold normalizeString
  rw [List.map_congr_left (fun c hc => jsToLower_of_kept (h c hc)), List.map_id']
  rw [show l.flatMap jsNfdDecompose = l.flatMap (fun c => [c]) from
    List.flatMap_congr (fun c hc => jsNfdDecompose_of_kept (h c hc))]
  rw [List.flatMap_singleton']
  have h1 : List.filter (fun n => ! isCombiningMark n) l = l :=
    List.filter_eq_self.mpr fun c hc => by
      simp only [not_combiningMark_of_kept (h c hc), Bool.not_false]
  rw [h1]
  exact List.filter_eq_self.mpr h

/-- Claim C8: string normalization is idempotent. -/
theorem normalizeString_idempotent (s : JsStr) :
    normalizeString (normalizeString s) = normalizeString s :=
  normalizeString_of_all_kept fun _ hc => (List.mem_filter.mp hc).2

/-! ### Claim C1: corridor ordering invariant -/

/-- Corridor visits emitted for any index map are sorted by distance rank. -/
theorem corridors_chain_of_index (m : List (JsStr × Location)) (shoppingList : List JsStr) :
    List.Chain' (fun u v => rankD u.name ≤ rankD v.name)
      (optimizeShoppingPath m shoppingList).corridors := by
  simp only [optimizeShoppingPath]
  rw [List.chain'_map]
  exact ((List.sorted_insertionSort rankLe _) : List.Pairwise rankLe _).chain'

/-- Claim C1: for every catalog and every shopping list, consecutive
corridor visits in the output have non-decreasing distance rank (the
table rank, with the code's `|| 0` default for unknown names), regardless
of the order items appear in the shopping list. -/
theorem corridor_order_nondecreasing_rank (storeData : StoreData) (shoppingList : List JsStr) :
    List.Chain' (fun u v => rankD u.name ≤ rankD v.name)
      (optimizeShoppingPath (createProductIndex storeData) shoppingList).corridors :=
  corridors_chain_of_index (createProductIndex storeData) shoppingList

/-! ### Claim C7: the DP edit distance equals the recursive Levenshtein -/

/-- The recursive Levenshtein distance to the empty string is the length. -/
theorem levenshteinRec_nil_right (a : JsStr) : levenshteinRec a [] = a.length := by
  cases a <;> simp [levenshteinRec]

/-- Appending one character to each string satisfies the last-character
recurrence of the Levenshtein distance. -/
theorem levenshteinRec_append_append (p q : Nat) :
    ∀ (n : Nat) (as bs : JsStr), as.length + bs.length ≤ n →
      levenshteinRec (as ++ [p]) (bs ++ [q]) =
        min (min (levenshteinRec as (bs ++ [q]) + 1) (levenshteinRec (as ++ [p]) bs + 1))
          (levenshteinRec as bs + if p = q then 0 else 1) := by
  intro n
  induction n with
  | zero =>
    intro as bs h
    match as, bs with
    | [], [] => simp [levenshteinRec]
    | [], _ :: _ => simp at h
    | _ :: _, _ => simp at h
  | succ n ih =>
    intro as bs h
    match as, bs with
    | [], [] => simp [levenshteinRec]
    | [], y :: bs' =>
      have hih := ih [] bs' (by simp only [List.length_nil, List.length_cons] at h ⊢; omega)
      simp only [List.nil_append] at hih
      simp only [List.nil_append, List.cons_append]
      simp only [levenshteinRec, List.length_cons, List.length_append, List.length_nil] at hih ⊢
      rw [hih]
      generalize (if p = q then 0 else 1) = cpq at *
      generalize (if p = y then 0 else 1) = cpy at *
      generalize levenshteinRec [p] bs' = B at *
      omega
    | x :: as', [] =>
      have hih := ih as' [] (by simp only [List.length_nil, List.length_cons] at h ⊢; omega)
      simp only [List.nil_append] at hih
      simp only [List.nil_append, List.cons_append]
      simp only [levenshteinRec, levenshteinRec_nil_right, List.length_cons,
        List.length_append, List.length_nil] at hih ⊢
      rw [hih]
      generalize (if p = q then 0 else 1) = cpq at *
      generalize (if x = q then 0 else 1) = cxq at *
      generalize levenshteinRec as' [q] = B at *
      omega
    | x :: as', y :: bs' =>
      have hA := ih as' (y :: bs')
        (by simp only [List.length_cons] at h ⊢; omega)
      have hB := ih (x :: as') bs'
        (by simp only [List.length_cons] at h ⊢; omega)
      have hC := ih as' bs'
        (by simp only [List.length_cons] at h ⊢; omega)
      simp only [List.cons_append] at hA hB hC ⊢
      simp only [levenshteinRec] at hA hB hC ⊢
      rw [hA, hB, hC]
      clear hA hB hC ih h
      generalize (if p = q then 0 else 1) = cpq
      generalize (if x = y then 0 else 1) = cxy
      generalize levenshteinRec as' (y :: (bs' ++ [q])) = g1
      generalize levenshteinRec (as' ++ [p]) (y :: bs') = g2
      generalize levenshteinRec as' (y :: bs') = g3
      generalize levenshteinRec (x :: as') (bs' ++ [q]) = g4
      generalize levenshteinRec (x :: (as' ++ [p])) bs' = g5
      generalize levenshteinRec (x :: as') bs' = g6
      generalize levenshteinRec as' (bs' ++ [q]) = g7
      generalize levenshteinRec (as' ++ [p]) bs' = g8
      generalize levenshteinRec as' bs' = g9
      repeat rw [← min_add_add_right]
      ring_nf
      ac_rfl

/-- Every cell of the dynamic-programming matrix holds the recursive
Levenshtein distance of the corresponding prefixes. -/
theorem levMatrix_eq_rec (a b : JsStr) :
    ∀ j i, j ≤ b.length → i ≤ a.length →
      levMatrix a b j i = levenshteinRec (a.take i) (b.take j) := by
  intro j
  induction j with
  | zero =>
    intro i hj hi
    simp only [levMatrix, List.take_zero, levenshteinRec_nil_right, List.length_take]
    omega
  | succ j ihj =>
    intro i
    induction i with
    | zero =>
      intro hj hi
      simp only [levMatrix, List.take_zero, levenshteinRec, List.length_take]
      omega
    | succ i ihi =>
      intro hj hi
      have hia : i < a.length := by omega
      have hjb : j < b.length := by omega
      simp only [levMatrix]
      rw [ihi (by omega) (by omega), ihj (i + 1) (by omega) (by omega), ihj i (by omega) (by omega)]
      rw [List.take_succ, List.take_succ, List.getElem?_eq_getElem hia,
        List.getElem?_eq_getElem hjb]
      simp only [Option.toList_some]
      rw [List.getD_eq_getElem a 0 hia, List.getD_eq_getElem b 0 hjb]
      rw [levenshteinRec_append_append a[i] b[j]
        ((a.take i).length + (b.take j).length) (a.take i) (b.take j) le_rfl]
      generalize (if (a[i] : Nat) = b[j] then 0 else 1) = c
      generalize levenshteinRec (a.take i) (b.take j ++ [b[j]]) = g1
      generalize levenshteinRec (a.take i ++ [a[i]]) (b.take j) = g2
      generalize levenshteinRec (a.take i) (b.take j) = g3
      omega

/-- Claim C7: the dynamic-programming edit-distance function computes
exactly the classic recursive Levenshtein distance, for all strings. -/
theorem calculateLevenshteinDistance_eq_rec (a b : JsStr) :
    calculateLevenshteinDistance a b = levenshteinRec a b := by
  unfold calculateLevenshteinDistance
  split_ifs with h1 h2
  · have ha : a = [] := List.length_eq_zero.mp h1
    subst ha
    simp [levenshteinRec]
  · have hb : b = [] := List.length_eq_zero.mp h2
    subst hb
    rw [levenshteinRec_nil_right]
  · rw [levMatrix_eq_rec a b b.length a.length le_rfl le_rfl, List.take_length,
      List.take_length]

/-! ### Claim C2: coverage of the shopping list -/

/-- The matched items (by name) together with the unmatched items are a
permutation of the shopping list. -/
theorem located_partition_perm (m : List (JsStr × Location)) : ∀ l : List JsStr,
    ((l.filterMap (fun it => (findProductLocation m it).map (fun loc => (it, loc)))).map
        (fun p => p.1) ++
      l.filter (fun it => (findProductLocation m it).isNone)).Perm l := by
  intro l
  induction l with
  | nil => simp
  | cons it l ih =>
    cases h : findProductLocation m it with
    | some loc =>
      simp only [List.filterMap_cons, h, List.filter_cons, Option.isNone_some, List.map_cons]
      exact ih.cons it
    | none =>
      simp only [List.filterMap_cons, h, List.filter_cons, Option.isNone_none, if_pos]
      exact List.perm_middle.trans (ih.cons it)

/-- Adding one item to the corridor buckets appends it to the flattened
bucket contents, up to permutation. -/
theorem addToGroup_flatMap_perm {α : Type} (g : List (JsStr × List α)) (k : JsStr) (v : α) :
    ((addToGroup g k v).flatMap (fun x => x.2)).Perm (g.flatMap (fun x => x.2) ++ [v]) := by
  induction g with
  | nil => simp [addToGroup]
  | cons gr g ih =>
    by_cases hk : gr.1 = k
    · simp only [addToGroup, if_pos hk, List.flatMap_cons, List.append_assoc]
      exact List.Perm.append_left gr.2 (List.Perm.append_right _ (List.Perm.refl _)) |>.trans
        (List.Perm.append_left gr.2 List.perm_append_comm)
    · simp only [addToGroup, if_neg hk, List.flatMap_cons, List.append_assoc]
      exact List.Perm.append_left gr.2 ih

/-- Flattening the corridor buckets built by the grouping fold recovers the
inserted items, up to permutation. -/
theorem groupFold_flatMap_perm : ∀ (ps : List (JsStr × Location))
    (acc : List (JsStr × List (JsStr × Location))),
    ((ps.foldl (fun acc item => addToGroup acc item.2.corridor item) acc).flatMap
        (fun g => g.2)).Perm (acc.flatMap (fun g => g.2) ++ ps) := by
  intro ps
  induction ps with
  | nil => intro acc; simp
  | cons p ps ih =>
    intro acc
    simp only [List.foldl_cons]
    refine (ih _).trans ?_
    refine (List.Perm.append_right ps (addToGroup_flatMap_perm acc p.2.corridor p)).trans ?_
    simp [List.append_assoc]

/-- The keys of the corridor buckets after adding one item. -/
theorem addToGroup_keys {α : Type} (g : List (JsStr × List α)) (k : JsStr) (v : α) :
    (addToGroup g k v).map (fun x => x.1) =
      if k ∈ g.map (fun x => x.1) then g.map (fun x => x.1)
      else g.map (fun x => x.1) ++ [k] := by
  induction g with
  | nil => simp [addToGroup]
  | cons gr g ih =>
    by_cases hk : gr.1 = k
    · simp [addToGroup, hk]
    · simp only [addToGroup, if_neg hk, List.map_cons, ih, List.mem_cons]
      by_cases hm : k ∈ g.map (fun x => x.1)
      · simp [hm, Ne.symm hk]
      · simp [hm, Ne.symm hk]

/-- Adding one item preserves distinctness of the bucket keys. -/
theorem addToGroup_keys_nodup {α : Type} {g : List (JsStr × List α)} (k : JsStr) (v : α)
    (h : (g.map (fun x => x.1)).Nodup) :
    ((addToGroup g k v).map (fun x => x.1)).Nodup := by
  rw [addToGroup_keys]
  by_cases hm : k ∈ g.map (fun x => x.1)
  · simpa [hm] using h
  · simpa [hm, ← List.concat_eq_append] using List.Nodup.concat hm h

/-- The bucket keys produced by `organizeItemsByCorridor` are distinct. -/
theorem organize_keys_nodup (ps : List (JsStr × Location)) :
    ((organizeItemsByCorridor ps).map (fun x => x.1)).Nodup := by
  suffices h : ∀ acc : List (JsStr × List (JsStr × Location)),
      (acc.map (fun x => x.1)).Nodup →
      ((ps.foldl (fun acc item => addToGroup acc item.2.corridor item) acc).map
        (fun x => x.1)).Nodup by
    exact h [] List.nodup_nil
  induction ps with
  | nil => intro acc hacc; exact hacc
  | cons p ps ih =>
    intro acc hacc
    simp only [List.foldl_cons]
    exact ih _ (addToGroup_keys_nodup _ _ hacc)

/-- Lookup at the head key of an association list. -/
theorem lookupJs_cons_self {α : Type} (k : JsStr) (v : α) (m : List (JsStr × α)) :
    lookupJs ((k, v) :: m) k = some v := by
  simp [lookupJs, List.find?]

/-- Lookup skips a head entry with a different key. -/
theorem lookupJs_cons_ne {α : Type} {k k' : JsStr} (v : α) (m : List (JsStr × α))
    (h : k ≠ k') : lookupJs ((k, v) :: m) k' = lookupJs m k' := by
  simp [lookupJs, List.find?, h]

/-- Iterating the looked-up buckets' first components over the (distinct)
keys is the same as iterating over the buckets directly. -/
theorem flatMap_lookup_keys :
    ∀ (gs : List (JsStr × List (JsStr × Location))), ((gs.map (fun g => g.1)).Nodup) →
      ((gs.map (fun g => g.1)).flatMap
          (fun k => ((lookupJs gs k).getD []).map (fun p => p.1))) =
        gs.flatMap (fun g => g.2.map (fun p => p.1)) := by
  intro gs
  induction gs with
  | nil => simp
  | cons g gs ih =>
    intro hnd
    simp only [List.map_cons, List.nodup_cons] at hnd ⊢
    simp only [List.flatMap_cons]
    have hhead : lookupJs (g :: gs) g.1 = some g.2 := lookupJs_cons_self g.1 g.2 gs
    have htail : ∀ k ∈ gs.map (fun x => x.1),
        ((lookupJs (g :: gs) k).getD []).map (fun p => (p.1 : JsStr)) =
          ((lookupJs gs k).getD []).map (fun p => p.1) := by
      intro k hk
      have hne : g.1 ≠ k := fun he => hnd.1 (he ▸ hk)
      rw [show (g :: gs) = (g.1, g.2) :: gs from rfl, lookupJs_cons_ne g.2 gs hne]
    rw [hhead, List.flatMap_congr htail, ih hnd.2]
    simp

/-- Flattening the corridor buckets recovers the grouped items, up to
permutation. -/
theorem organize_flatMap_perm (ps : List (JsStr × Location)) :
    ((organizeItemsByCorridor ps).flatMap (fun g => g.2)).Perm ps := by
  simpa using groupFold_flatMap_perm ps []

/-- Coverage for an arbitrary index map: the names inside all emitted
corridor visits followed by the unmatched items form a permutation of the
shopping list. -/
theorem coverage_of_index (m : List (JsStr × Location)) (l : List JsStr) :
    ((optimizeShoppingPath m l).corridors.flatMap (fun v => v.items.map (fun it => it.name)) ++
      (optimizeShoppingPath m l).notFoundItems).Perm l := by
  simp only [optimizeShoppingPath]
  rw [List.flatMap_map]
  simp only [List.map_map, Function.comp]
  refine (List.Perm.append_right _ ?_).trans (located_partition_perm m l)
  refine (List.Perm.flatMap_left _
    (fun c _ =>
      (List.perm_insertionSort _ _).map (fun p => (p : JsStr × Location).1))).trans ?_
  refine ((List.perm_insertionSort rankLe _).flatMap_right _).trans ?_
  rw [flatMap_lookup_keys _ (organize_keys_nodup _), ← List.map_flatMap]
  exact (organize_flatMap_perm _).map (fun p => p.1)

/-- Claim C2: for every catalog and every shopping list, each shopping-list
entry (counting duplicates) appears exactly once in the output: either
inside the items of exactly one corridor visit or in the not-found list —
the combined output is a permutation of the input list, and the not-found
list is exactly the entries for which no location was found. -/
theorem shoppingList_coverage_perm (storeData : StoreData) (l : List JsStr) :
    ((optimizeShoppingPath (createProductIndex storeData) l).corridors.flatMap
        (fun v => v.items.map (fun it => it.name)) ++
      (optimizeShoppingPath (createProductIndex storeData) l).notFoundItems).Perm l ∧
    (optimizeShoppingPath (createProductIndex storeData) l).notFoundItems =
      l.filter
        (fun it => (findProductLocation (createProductIndex storeData) it).isNone) :=
  ⟨coverage_of_index (createProductIndex storeData) l, rfl⟩

/-! ### Claim C6: threshold, sorting, cap and stability of the search -/

/-- Filtering an ordered insertion by an exact score keeps the inserted
element first (when it has that score) and the rest unchanged: elements
skipped by the insertion have strictly larger scores. -/
theorem orderedInsert_filter_score (s : ℚ) (x : GroceryItem × ℚ) :
    ∀ l : List (GroceryItem × ℚ),
      ((l.orderedInsert scoreGe x).filter (fun p => decide (p.2 = s))) =
        if x.2 = s then x :: l.filter (fun p => decide (p.2 = s))
        else l.filter (fun p => decide (p.2 = s)) := by
  intro l
  induction l with
  | nil => by_cases hx : x.2 = s <;> simp [List.orderedInsert, hx]
  | cons y l ih =>
    rw [List.orderedInsert]
    by_cases hr : scoreGe x y
    · rw [if_pos hr]
      by_cases hx : x.2 = s <;> simp [List.filter_cons, hx]
    · rw [if_neg hr]
      by_cases hx : x.2 = s
      · have hy : ¬ (y.2 = s) := fun he => hr (le_of_eq (by rw [he, hx]))
        simp [List.filter_cons, hx, hy, ih]
      · simp [List.filter_cons, hx, ih]

/-- Stability of the descending score sort: restricting to any one exact
score commutes with sorting, i.e. equal-score entries keep their input
order. -/
theorem insertionSort_filter_score (s : ℚ) :
    ∀ l : List (GroceryItem × ℚ),
      ((l.insertionSort scoreGe).filter (fun p => decide (p.2 = s))) =
        l.filter (fun p => decide (p.2 = s)) := by
  intro l
  induction l with
  | nil => rfl
  | cons x l ih =>
    rw [List.insertionSort, orderedInsert_filter_score]
    by_cases hx : x.2 = s <;> simp [List.filter_cons, hx, ih]

/-- Claim C6: the catalog search returns only entries whose combined score
strictly exceeds 0.2, sorted non-increasing by combined score, at most 20
of them, and equal-score entries keep their input order (the returned
entries of any fixed score are a sublist of the input entries of that
score). -/
theorem searchProducts_threshold_sorted_capped_stable (query : JsStr)
    (allItems : List GroceryItem) :
    (searchProducts query allItems).Forall
        (fun e => (0.2 : ℚ) < searchTotalScore query e) ∧
      List.Chain' (fun a b => searchTotalScore query b ≤ searchTotalScore query a)
        (searchProducts query allItems) ∧
      (searchProducts query allItems).length ≤ 20 ∧
      ∀ s : ℚ, ((searchProducts query allItems).filter
          (fun e => decide (searchTotalScore query e = s))).Sublist
        (allItems.filter (fun e => decide (searchTotalScore query e = s))) := by
  unfold searchProducts
  split_ifs with hq
  · simp [List.Forall]
  · have hmem : ∀ p ∈ (((allItems.map
        (fun item => (item, searchTotalScore query item))).filter
          (fun p => decide ((0.2 : ℚ) < p.2))).insertionSort scoreGe),
        p.2 = searchTotalScore query p.1 ∧ (0.2 : ℚ) < p.2 := by
      intro p hp
      have hp2 := (List.mem_insertionSort scoreGe).mp hp
      have hth := List.of_mem_filter hp2
      have hps := List.mem_of_mem_filter hp2
      rcases List.mem_map.mp hps with ⟨e, _, rfl⟩
      exact ⟨rfl, by simpa using hth⟩
    refine ⟨?_, ?_, ?_, ?_⟩
    · rw [List.forall_iff_forall_mem]
      intro e he
      have he2 := List.take_subset 20 _ he
      rcases List.mem_map.mp he2 with ⟨p, hp, rfl⟩
      rcases hmem p hp with ⟨hs, hlt⟩
      rw [← hs]
      exact hlt
    · have hsorted := List.sorted_insertionSort scoreGe
        ((allItems.map (fun item => (item, searchTotalScore query item))).filter
          (fun p => decide ((0.2 : ℚ) < p.2)))
      have hpair : List.Pairwise
          (fun a b : GroceryItem × ℚ =>
            searchTotalScore query b.1 ≤ searchTotalScore query a.1)
          (((allItems.map (fun item => (item, searchTotalScore query item))).filter
            (fun p => decide ((0.2 : ℚ) < p.2))).insertionSort scoreGe) := by
        refine List.Pairwise.imp_of_mem ?_ (hsorted : List.Pairwise scoreGe _)
        intro a b ha hb hr
        rw [← (hmem a ha).1, ← (hmem b hb).1]
        exact hr
      have hmap : List.Pairwise
          (fun a b : GroceryItem =>
            searchTotalScore query b ≤ searchTotalScore query a)
          ((((allItems.map (fun item => (item, searchTotalScore query item))).filter
            (fun p => decide ((0.2 : ℚ) < p.2))).insertionSort scoreGe).map
              (fun p => p.1)) :=
        List.pairwise_map.mpr hpair
      exact (List.Pairwise.sublist (List.take_sublist 20 _) hmap).chain'
    · exact List.length_take_le 20 _
    · intro s
      rw [← List.map_take, List.filter_map, Function.comp_def]
      have h1 := List.Sublist.filter (fun p : GroceryItem × ℚ =>
          decide (searchTotalScore query p.1 = s))
        (List.take_sublist 20
          (((allItems.map (fun item => (item, searchTotalScore query item))).filter
            (fun p => decide ((0.2 : ℚ) < p.2))).insertionSort scoreGe))
      refine (h1.map (fun p => p.1)).trans ?_
      have e2 : (((allItems.map (fun item => (item, searchTotalScore query item))).filter
            (fun p => decide ((0.2 : ℚ) < p.2))).insertionSort scoreGe).filter
            (fun p => decide (searchTotalScore query p.1 = s)) =
          (((allItems.map (fun item => (item, searchTotalScore query item))).filter
            (fun p => decide ((0.2 : ℚ) < p.2))).insertionSort scoreGe).filter
            (fun p => decide (p.2 = s)) :=
        List.filter_congr (fun p hp => by rw [(hmem p hp).1])
      rw [e2, insertionSort_filter_score, List.filter_filter]
      have h5 : ((allItems.map (fun item => (item, searchTotalScore query item))).filter
          (fun a => decide (a.2 = s) && decide ((0.2 : ℚ) < a.2))).Sublist
          ((allItems.map (fun item => (item, searchTotalScore query item))).filter
            (fun a => decide (a.2 = s))) :=
        List.monotone_filter_right _ (fun a ha => by
          simp only [Bool.and_eq_true] at ha
          exact ha.1)
      refine (h5.map (fun p => p.1)).trans ?_
      rw [List.filter_map, List.map_map]
      simp [Function.comp_def]

/-! ### Claim C4: placement of corridors missing from the distance table -/

/-- Catalog with one corridor name (`Gang 7`) absent from the distance
table and one (`Gang 1`) present in it. -/
def unknownCorridorStore : StoreData :=
  [(js "Gang 7", CorridorData.sided [(js "N",
      { positions := [], categories := [(js "misc", [js "foo"])] })]),
   (js "Gang 1", CorridorData.sided [(js "N",
      { positions := [], categories := [(js "dairy", [js "milk"])] })])]

/-- Claim C4 fails on the code: with a matched item in the unknown corridor
`Gang 7` and one in the known corridor `Gang 1`, the unknown corridor is
emitted FIRST (its missing rank defaults to 0), not after the known-rank
corridors. -/
theorem unknown_corridor_first_counterexample :
    ((optimizeShoppingPath (createProductIndex unknownCorridorStore)
        [js "foo", js "milk"]).corridors.map (fun v => v.name) =
      [js "Gang 7", js "Gang 1"]) ∧
    lookupJs corridorDistances (js "Gang 7") = none ∧
    lookupJs corridorDistances (js "Gang 1") = some 2 := by
  decide

/-- Every rank recorded in the distance table is at least 1. -/
theorem corridorDistances_rank_pos {k : JsStr} {v : Nat}
    (h : lookupJs corridorDistances k = some v) : 1 ≤ v := by
  unfold lookupJs at h
  cases hfind : List.find? (fun p => decide (p.1 = k)) corridorDistances with
  | none => rw [hfind] at h; simp at h
  | some pr =>
    rw [hfind] at h
    simp only [Option.map_some', Option.some.injEq] at h
    have hall : ∀ x ∈ corridorDistances, 1 ≤ x.2 := by decide
    exact h ▸ hall pr (List.mem_of_find?_eq_some hfind)

/-- The emitted corridor visits are pairwise ordered by distance rank. -/
theorem corridors_pairwise_of_index (m : List (JsStr × Location)) (l : List JsStr) :
    List.Pairwise (fun u v : CorridorPath => rankD u.name ≤ rankD v.name)
      (optimizeShoppingPath m l).corridors := by
  simp only [optimizeShoppingPath]
  exact List.pairwise_map.mpr ((List.sorted_insertionSort rankLe _ : List.Pairwise rankLe _))

/-- Amended claim C4: unknown corridors sort deterministically FIRST (their
missing rank defaults to 0, below every table rank), so once a visit's
corridor has a known rank, every later visit's corridor also has a known
rank — unknown corridors never come after or between known ones. -/
theorem unknown_corridors_precede_known (m : List (JsStr × Location)) (l : List JsStr)
    (i j : Nat) (hij : i < j)
    (hj : j < (optimizeShoppingPath m l).corridors.length)
    (hi : lookupJs corridorDistances
      (((optimizeShoppingPath m l).corridors.get ⟨i, Nat.lt_trans hij hj⟩).name) ≠ none) :
    lookupJs corridorDistances
      (((optimizeShoppingPath m l).corridors.get ⟨j, hj⟩).name) ≠ none := by
  have hp := corridors_pairwise_of_index m l
  have hrel := List.pairwise_iff_get.mp hp ⟨i, Nat.lt_trans hij hj⟩ ⟨j, hj⟩ hij
  obtain ⟨v, hv⟩ := Option.ne_none_iff_exists'.mp hi
  intro hnone
  rw [show rankD (((optimizeShoppingPath m l).corridors.get ⟨j, hj⟩).name) = 0 from by
    rw [rankD, hnone]; rfl] at hrel
  rw [show rankD (((optimizeShoppingPath m l).corridors.get
      ⟨i, Nat.lt_trans hij hj⟩).name) = v from by rw [rankD, hv]; rfl] at hrel
  exact absurd (Nat.le_antisymm hrel (Nat.zero_le v) ▸ corridorDistances_rank_pos hv)
    (by omega)

/-- Catalog with matched items in two corridors that both have table
ranks, used to instantiate the amended claim C4. -/
def knownCorridorsStore : StoreData :=
  [(js "Gang 1", CorridorData.sided [(js "N",
      { positions := [], categories := [(js "dairy", [js "milk"])] })]),
   (js "Gang 2", CorridorData.sided [(js "N",
      { positions := [], categories := [(js "bakery", [js "bread"])] })])]

/-- Witness for the amended claim C4 at a concrete catalog and list. -/
theorem unknown_corridors_precede_known_witness :
    lookupJs corridorDistances
      (((optimizeShoppingPath (createProductIndex knownCorridorsStore)
          [js "milk", js "bread"]).corridors.get ⟨1, by decide⟩).name) ≠ none :=
  unknown_corridors_precede_known (createProductIndex knownCorridorsStore)
    [js "milk", js "bread"] 0 1 (by decide) (by decide) (by decide)

/-! ### Claim C10: resolution of empty shopping-list entries -/

/-- Catalog whose index contains the empty string as a (non-first) key:
the side aisle stocks a product named `"a"` and a product with the empty
name. -/
def emptyKeyStore : StoreData :=
  [(js "Seiten M", CorridorData.flat [(js "x", [js "a"]), (js "y", [js ""])])]

/-- Claim C10 fails as stated: on an index containing the empty string as
a stored key, resolving the empty entry takes the exact-match branch and
returns the empty-keyed entry's location, not the location of the first
product encountered during map iteration. -/
theorem findProductLocation_empty_counterexample :
    createProductIndex emptyKeyStore ≠ [] ∧
    findProductLocation (createProductIndex emptyKeyStore) (js "") ≠
      ((createProductIndex emptyKeyStore).head?).map (fun p => p.2) := by
  decide

/-- The empty string is a substring of every string. -/
theorem isSubstrOfJs_nil_left (h : JsStr) : isSubstrOfJs [] h = true := by
  cases h <;> rfl

/-- Amended claim C10: on a nonempty index, an entry whose lowercased text
is empty always resolves to a location — the first-iterated entry's
location via the substring fallback when the empty string is not a stored
key (exact match returns the empty-keyed entry otherwise) — and therefore
such an entry is never placed in the not-found list. -/
theorem findProductLocation_empty_finds_location (m : List (JsStr × Location))
    (hm : m ≠ []) (item : JsStr) (hitem : item.map jsToLower = []) :
    (lookupJs m [] = none →
      findProductLocation m item = (m.head?).map (fun p => p.2)) ∧
    (findProductLocation m item).isSome = true ∧
    ∀ l : List JsStr, item ∉ (optimizeShoppingPath m l).notFoundItems := by
  obtain ⟨p, rest, rfl⟩ : ∃ p rest, m = p :: rest := by
    cases m with
    | nil => exact absurd rfl hm
    | cons p rest => exact ⟨p, rest, rfl⟩
  have hfind : ∀ hnone : lookupJs (p :: rest) [] = none,
      findProductLocation (p :: rest) item = some p.2 := by
    intro hnone
    simp only [findProductLocation, hitem, hnone]
    simp [List.find?, isSubstrOfJs_nil_left]
  have hsome : (findProductLocation (p :: rest) item).isSome = true := by
    cases hl : lookupJs (p :: rest) [] with
    | some loc => simp [findProductLocation, hitem, hl]
    | none => rw [hfind hl]; rfl
  refine ⟨?_, hsome, ?_⟩
  · intro hnone
    rw [hfind hnone]
    rfl
  · intro l hmem
    have hmem2 : item ∈ l.filter
        (fun it => (findProductLocation (p :: rest) it).isNone) := hmem
    have h3 := List.of_mem_filter hmem2
    simp only [Option.isNone_iff_eq_none] at h3
    rw [h3] at hsome
    simp at hsome

/-- A one-product index used to instantiate the amended claim C10. -/
def singleProductIndex : List (JsStr × Location) :=
  [(js "milk",
    { corridor := js "Gang 1", direction := js "N", position := [],
      category := js "dairy", distanceFromStart := some 2 })]

/-- Witness for the amended claim C10 at a concrete index and list. -/
theorem findProductLocation_empty_finds_location_witness :
    (js "") ∉ (optimizeShoppingPath singleProductIndex [js ""]).notFoundItems :=
  (findProductLocation_empty_finds_location singleProductIndex (by decide)
    (js "") (by decide)).2.2 [js ""]

end SparApp
